import Mathlib

/-!
Verification of the background-removal compositing pipeline
(`src/unnamed/part_002`, with `src/utils/processImage.ts` an earlier
revision of the same module).  Strings are modelled as `List Char`,
JavaScript numbers as exact rationals in the layout pipeline, and the
canvas transform state as an affine matrix plus a save stack.
-/

namespace BGRemoval

/-! ### Price text formatter — `part_002` lines 159-171

`displayText = options.priceText.trim()`;
`numericValue = displayText.replace(/[^0-9.]/g, "")`; then the two
`if`/`else if` branches rewriting `displayText`. -/

/-- Whitespace recognised by `String.prototype.trim` (ASCII portion). -/
def isWs (c : Char) : Bool :=
  c == ' ' || c == '\t' || c == '\n' || c == '\r' || c == '\x0b' || c == '\x0c'

/-- `s.trim()`: drop whitespace from both ends. -/
def trim (l : List Char) : List Char :=
  (l.dropWhile isWs).rdropWhile isWs

/-- A character kept by the regex replace `/[^0-9.]/g` → `""`. -/
def isNumericChar (c : Char) : Bool :=
  c.isDigit || c == '.'

/-- `displayText.replace(/[^0-9.]/g, "")`. -/
def stripNonNumeric (l : List Char) : List Char :=
  l.filter isNumericChar

/-- `s.toLowerCase()` (ASCII case mapping). -/
def toLowerL (l : List Char) : List Char :=
  l.map Char.toLower

/-- The literal `"rs"`. -/
def rsMarker : List Char := ['r', 's']

/-- The literal `"/="`. -/
def slashEq : List Char := ['/', '=']

/-- `haystack.includes(needle)`. -/
def includesL : List Char → List Char → Bool
  | [], sub => sub.isEmpty
  | c :: tl, sub => sub.isPrefixOf (c :: tl) || includesL tl sub

/-- First branch condition:
`numericValue && !displayText.toLowerCase().includes("rs")`. -/
def cond1 (t : List Char) : Bool :=
  !(stripNonNumeric t).isEmpty && !(includesL (toLowerL t) rsMarker)

/-- Second branch condition:
`displayText.toLowerCase().startsWith("rs") && !displayText.endsWith("/=")`. -/
def cond2 (t : List Char) : Bool :=
  rsMarker.isPrefixOf (toLowerL t) && !(slashEq.isSuffixOf t)

/-- The branch logic applied to the already-trimmed `displayText`. -/
def formatBranch (t : List Char) : List Char :=
  if cond1 t then ('R' :: 's' :: ' ' :: stripNonNumeric t) ++ slashEq
  else if cond2 t then t ++ slashEq
  else t

/-- The complete price-text formatting of `part_002` lines 160-171. -/
def formatPrice (s : List Char) : List Char :=
  formatBranch (trim s)

/-! ### Layout resolver — `part_002` lines 82-108 -/

inductive CornerPosition where
  | topLeft
  | topRight
  | bottomLeft
  | bottomRight
  | custom
deriving DecidableEq

/-- The `{x, y}` object returned by `getCoords`. -/
structure Pt where
  x : ℚ
  y : ℚ
deriving DecidableEq

def targetSize : ℚ := 720

def padding : ℚ := 40

/-- `getCoords(w, h, pos, customX, customY)` with both custom
coordinates supplied (`part_002` lines 83-108).  The final `custom`
arm is the unreachable `default:` case of the `switch`. -/
def getCoords (w h : ℚ) (pos : CornerPosition) (customX customY : ℚ) : Pt :=
  if pos = CornerPosition.custom then
    ⟨customX / 100 * targetSize - w / 2, customY / 100 * targetSize - h / 2⟩
  else
    match pos with
    | CornerPosition.topLeft => ⟨padding, padding⟩
    | CornerPosition.topRight => ⟨targetSize - w - padding, padding⟩
    | CornerPosition.bottomLeft => ⟨padding, targetSize - h - padding⟩
    | CornerPosition.bottomRight => ⟨targetSize - w - padding, targetSize - h - padding⟩
    | CornerPosition.custom => ⟨padding, padding⟩

/-- `getCoords` as called with possibly-omitted custom coordinates: the
TypeScript parameters `customX = 0, customY = 0` substitute `0` for a
missing (`undefined`) argument. -/
def getCoordsOpt (w h : ℚ) (pos : CornerPosition) (customX customY : Option ℚ) : Pt :=
  getCoords w h pos (customX.getD 0) (customY.getD 0)

/-! ### Subject fit — `part_002` lines 71-78 -/

/-- The values `scale`, `newWidth`, `newHeight`, `x`, `y` computed for
the main subject. -/
structure SubjectLayout where
  scale : ℚ
  newWidth : ℚ
  newHeight : ℚ
  x : ℚ
  y : ℚ
deriving DecidableEq

def subjectFit (w h : ℚ) : SubjectLayout :=
  let scale := min (targetSize * 0.9 / w) (targetSize * 0.9 / h)
  let newWidth := w * scale
  let newHeight := h * scale
  ⟨scale, newWidth, newHeight, (targetSize - newWidth) / 2, (targetSize - newHeight) / 2⟩

/-! ### Transform compositor — `part_002` lines 110-124

The 2D context transform is an affine matrix `[[a, c, e], [b, d, f]]`;
`translate`/`rotate`/`scale` post-multiply it, `save` pushes it on a
stack and `restore` pops.  The section is parameterised by the carrier
field together with the trigonometric oracle (`piA`, `cosF`, `sinF`) so
that the definitions stay executable; the real-number theorems
instantiate them with `Real.pi`, `Real.cos`, `Real.sin`. -/

/-- A canvas affine matrix `[[a, c, e], [b, d, f]]`. -/
structure Mat2D (α : Type) where
  a : α
  b : α
  c : α
  d : α
  e : α
  f : α
deriving DecidableEq

/-- Matrix composition `m * n` (apply `n` first in user space). -/
def Mat2D.mul {α : Type} [Mul α] [Add α] (m n : Mat2D α) : Mat2D α :=
  ⟨m.a * n.a + m.c * n.b, m.b * n.a + m.d * n.b,
   m.a * n.c + m.c * n.d, m.b * n.c + m.d * n.d,
   m.a * n.e + m.c * n.f + m.e, m.b * n.e + m.d * n.f + m.f⟩

/-- Where a user-space point is mapped by the transform. -/
def Mat2D.apply {α : Type} [Mul α] [Add α] (m : Mat2D α) (p : α × α) : α × α :=
  (m.a * p.1 + m.c * p.2 + m.e, m.b * p.1 + m.d * p.2 + m.f)

/-- `ctx.translate(x, y)` as a matrix. -/
def translateM {α : Type} [Zero α] [One α] (x y : α) : Mat2D α :=
  ⟨1, 0, 0, 1, x, y⟩

/-- `ctx.rotate(θ)` as a matrix, given `cos θ` and `sin θ`. -/
def rotateM {α : Type} [Zero α] [Neg α] (cosv sinv : α) : Mat2D α :=
  ⟨cosv, sinv, -sinv, cosv, 0, 0⟩

/-- `ctx.scale(sx, sy)` as a matrix. -/
def scaleM {α : Type} [Zero α] (sx sy : α) : Mat2D α :=
  ⟨sx, 0, 0, sy, 0, 0⟩

/-- The 2D context transform state: current matrix plus save stack. -/
structure Ctx (α : Type) where
  transform : Mat2D α
  stack : List (Mat2D α)
deriving DecidableEq

def ctxSave {α : Type} (c : Ctx α) : Ctx α :=
  ⟨c.transform, c.transform :: c.stack⟩

/-- `ctx.restore()`: pop the saved state; a no-op on an empty stack. -/
def ctxRestore {α : Type} (c : Ctx α) : Ctx α :=
  match c.stack with
  | [] => c
  | m :: rest => ⟨m, rest⟩

def ctxTranslate {α : Type} [Mul α] [Add α] [Zero α] [One α] (x y : α) (c : Ctx α) : Ctx α :=
  ⟨c.transform.mul (translateM x y), c.stack⟩

def ctxRotate {α : Type} [Mul α] [Add α] [Zero α] [Neg α] (cosv sinv : α) (c : Ctx α) : Ctx α :=
  ⟨c.transform.mul (rotateM cosv sinv), c.stack⟩

def ctxScale {α : Type} [Mul α] [Add α] [Zero α] (sx sy : α) (c : Ctx α) : Ctx α :=
  ⟨c.transform.mul (scaleM sx sy), c.stack⟩

/-- Lines 117-121 of `drawTransform`: `save`, `translate(cx, cy)`,
`rotate(angle * π / 180)`, `scale(scale, scale)`,
`translate(-cx, -cy)` — the context state in which `drawFn` runs. -/
def setupTransform {α : Type} [Field α] (piA : α) (cosF sinF : α → α)
    (cx cy angle scale : α) (c : Ctx α) : Ctx α :=
  let c1 := ctxSave c
  let c2 := ctxTranslate cx cy c1
  let rad := angle * piA / 180
  let c3 := ctxRotate (cosF rad) (sinF rad) c2
  let c4 := ctxScale scale scale c3
  ctxTranslate (-cx) (-cy) c4

/-- `drawTransform(drawFn, cx, cy, angle, scale)` (lines 110-124).  The
callback may raise; there is no `try`/`finally`, so `ctx.restore()`
runs only when `drawFn` returns normally, exactly as in the source. -/
def drawTransform {α : Type} [Field α] (piA : α) (cosF sinF : α → α) {E : Type}
    (drawFn : Ctx α → Except E Unit × Ctx α)
    (cx cy angle scale : α) (c : Ctx α) : Except E Unit × Ctx α :=
  match drawFn (setupTransform piA cosF sinF cx cy angle scale c) with
  | (Except.ok _, c6) => (Except.ok (), ctxRestore c6)
  | (Except.error e, c6) => (Except.error e, c6)

/-! ### The full `processImage` pipeline — `part_002` lines 50-228

External facilities (`removeBackground`, `createImageBitmap`,
`canvas.getContext`, `ctx.measureText`, `canvas.toBlob`) are an
environment of oracle outcomes; the pipeline's own control flow,
formatting and geometry are computed. -/

/-- An opaque encoded image blob. -/
abbrev Blob := ℕ

/-- A decoded bitmap: only its dimensions matter to the pipeline. -/
structure Bitmap where
  width : ℚ
  height : ℚ
deriving DecidableEq

/-- Failures: `env n` is an error raised by an external facility;
`noCtx` is `Error("Could not get canvas context")` (line 64); and
`encodeFailed` is `Error("Canvas export failed")` (line 218). -/
inductive PErr where
  | env (code : ℕ)
  | noCtx
  | encodeFailed
deriving DecidableEq

/-- Outcomes of the external facilities for one invocation.
`cutout` is `removeBackground(imageFile, config)` (line 55),
`encodeResult` is what `canvas.toBlob` hands its callback
(`none` models a `null` blob, line 218), and `cutoutNoCfg` is the
distinct call `removeBackground(imageFile)` made in the `catch`
block (line 226). -/
structure Env where
  cutout : Except PErr Blob
  decodeSubject : Blob → Except PErr Bitmap
  ctxOk : Bool
  decodeLogo : Except PErr Bitmap
  measure : List Char → ℚ
  encodeResult : Option Blob
  cutoutNoCfg : Except PErr Blob

/-- The `ProcessOptions` bag (lines 32-48); `none` is an omitted field
and `logoFile` records whether a logo file was supplied. -/
structure ProcessOptions where
  logoFile : Bool
  logoPosition : Option CornerPosition
  logoScale : Option ℚ
  logoRotation : Option ℚ
  logoX : Option ℚ
  logoY : Option ℚ
  priceText : List Char
  pricePosition : Option CornerPosition
  priceColor : Option (List Char)
  priceBgColor : Option (List Char)
  priceScale : Option ℚ
  priceRotation : Option ℚ
  priceX : Option ℚ
  priceY : Option ℚ

/-- `processImage(imageFile)` with every option omitted. -/
def noOptions : ProcessOptions :=
  ⟨false, none, none, none, none, none, [], none, none, none, none, none, none, none⟩

/-- JavaScript `v || d` on a possibly-undefined number: `0` is falsy. -/
def jsOrQ (x : Option ℚ) (d : ℚ) : ℚ :=
  match x with
  | none => d
  | some v => if v = 0 then d else v

/-- JavaScript `v || d` on a possibly-undefined string: `""` is falsy. -/
def jsOrStr (x : Option (List Char)) (d : List Char) : List Char :=
  match x with
  | none => d
  | some s => if s = [] then d else s

/-- JavaScript `v || d` on a possibly-undefined position literal
(position strings are never empty, so only `undefined` is falsy). -/
def jsOrPos (x : Option CornerPosition) (d : CornerPosition) : CornerPosition :=
  match x with
  | none => d
  | some p => p

/-- What line 137 computes for the logo:
`getCoords(logoW, logoH, options.logoPosition || "top-right",
options.logoX, options.logoY)`. -/
def resolveLogoPos (opts : ProcessOptions) (logoW logoH : ℚ) : Pt :=
  getCoordsOpt logoW logoH (jsOrPos opts.logoPosition CornerPosition.topRight)
    opts.logoX opts.logoY

/-- One overlay as handed to `drawTransform`: resolved top-left, box
size, pivot centre, rotation and scale. -/
structure OverlayDraw where
  pos : Pt
  w : ℚ
  h : ℚ
  cx : ℚ
  cy : ℚ
  rotation : ℚ
  scaleF : ℚ
deriving DecidableEq

/-- The price-tag overlay: formatted text, colours, and its box. -/
structure PriceDraw where
  displayText : List Char
  color : List Char
  bgColor : List Char
  box : OverlayDraw
deriving DecidableEq

/-- What a successful advanced run draws, before export. -/
structure CompositeDesc where
  canvasW : ℚ
  canvasH : ℚ
  whiteFill : Bool
  subject : SubjectLayout
  logo : Option OverlayDraw
  price : Option PriceDraw
deriving DecidableEq

/-- Result of `processImage`: either the advanced composite with its
encoded blob, or the raw blob returned by the `catch`-path
`removeBackground(imageFile)`. -/
inductive ProcOut where
  | composite (d : CompositeDesc) (b : Blob)
  | raw (b : Blob)
deriving DecidableEq

/-- The awaited part of the `try` block of `processImage`
(lines 54-212): any `error` models a thrown exception / rejected
promise at that point, and these are the only failures the `catch`
can see.  The export step of lines 214-223 is **not** here: the
`new Promise` built there is returned without `await`, so its
rejection bypasses the `try`/`catch` (see `processImage`). -/
def processAdvanced (env : Env) (opts : ProcessOptions) : Except PErr CompositeDesc :=
  match env.cutout with
  | Except.error e => Except.error e
  | Except.ok transparentBlob =>
    match env.decodeSubject transparentBlob with
    | Except.error e => Except.error e
    | Except.ok imageBitmap =>
      if env.ctxOk = false then Except.error PErr.noCtx
      else
        let fit := subjectFit imageBitmap.width imageBitmap.height
        let logoStep : Except PErr (Option OverlayDraw) :=
          if opts.logoFile then
            match env.decodeLogo with
            | Except.error e => Except.error e
            | Except.ok logoBitmap =>
              let ratio := min (150 / logoBitmap.width) (150 / logoBitmap.height)
              let logoW := logoBitmap.width * ratio
              let logoH := logoBitmap.height * ratio
              let pos := resolveLogoPos opts logoW logoH
              Except.ok (some ⟨pos, logoW, logoH, pos.x + logoW / 2, pos.y + logoH / 2,
                jsOrQ opts.logoRotation 0, jsOrQ opts.logoScale 1⟩)
          else Except.ok none
        match logoStep with
        | Except.error e => Except.error e
        | Except.ok logoDraw =>
          let priceDraw : Option PriceDraw :=
            if opts.priceText = [] then none
            else
              let displayText := formatPrice opts.priceText
              let bgW := env.measure displayText + 16 * 2
              let bgH := 56 + 16 * 2
              let pos := getCoordsOpt bgW bgH (jsOrPos opts.pricePosition CornerPosition.bottomRight)
                opts.priceX opts.priceY
              some ⟨displayText, jsOrStr opts.priceColor "#FFFFFF".data,
                jsOrStr opts.priceBgColor "#E11D48".data,
                ⟨pos, bgW, bgH, pos.x + bgW / 2, pos.y + bgH / 2,
                 jsOrQ opts.priceRotation 0, jsOrQ opts.priceScale 1⟩⟩
          Except.ok ⟨targetSize, targetSize, true, fit, logoDraw, priceDraw⟩

/-- `processImage` with its `try`/`catch`.  On any exception raised by
an awaited step of the `try` block, the catch block returns
`await removeBackground(imageFile)` (lines 224-227).  The export step
(lines 214-223) is `return new Promise(...)` **without** `await`:
returning the promise leaves the `try` block before it settles, so an
encode failure (`Error("Canvas export failed")`) rejects past the
`catch` and propagates to the caller with no cutout retry. -/
def processImage (env : Env) (opts : ProcessOptions) : Except PErr ProcOut :=
  match processAdvanced env opts with
  | Except.ok d =>
    match env.encodeResult with
    | some b => Except.ok (ProcOut.composite d b)
    | none => Except.error PErr.encodeFailed
  | Except.error _ =>
    match env.cutoutNoCfg with
    | Except.ok b => Except.ok (ProcOut.raw b)
    | Except.error e => Except.error e

/-! ### Concrete instances used by witnesses and counterexamples -/

/-- The identity transform matrix over the rationals. -/
def idMat : Mat2D ℚ := ⟨1, 0, 0, 1, 0, 0⟩

/-- Options selecting `"custom"` logo placement with `logoX`/`logoY`
omitted. -/
def optsCustomLogo : ProcessOptions :=
  ⟨false, some CornerPosition.custom, none, none, none, none,
   [], none, none, none, none, none, none, none⟩

/-- Cutout succeeds, subject decode fails, and the catch-path cutout
call fails too. -/
def envDecodeFailRetryFail : Env :=
  ⟨Except.ok 1, fun _ => Except.error (PErr.env 2), true, Except.ok ⟨1, 1⟩,
   fun _ => 0, some 3, Except.error (PErr.env 4)⟩

/-- Cutout succeeds, subject decode fails, and the catch-path cutout
call returns blob `9`. -/
def envDecodeFailRetryOk : Env :=
  ⟨Except.ok 1, fun _ => Except.error (PErr.env 2), true, Except.ok ⟨1, 1⟩,
   fun _ => 0, some 3, Except.ok 9⟩

/-- The cutout call itself fails; the catch-path cutout call returns
blob `7`. -/
def envCutoutFailRetryOk : Env :=
  ⟨Except.error (PErr.env 5), fun _ => Except.ok ⟨1, 1⟩, true, Except.ok ⟨1, 1⟩,
   fun _ => 0, some 3, Except.ok 7⟩

/-- Every awaited step succeeds (cutout blob `1`, a 400×300 subject) but
`canvas.toBlob` yields `null`; the catch-path cutout call would have
returned blob `11`, but is never reached. -/
def envEncodeFail : Env :=
  ⟨Except.ok 1, fun _ => Except.ok ⟨400, 300⟩, true, Except.ok ⟨1, 1⟩,
   fun _ => 0, none, Except.ok 11⟩

/-! ## Helper lemmas about the formatter's string primitives -/

/-- Boolean `isPrefixOf` expressed through the underlying existential. -/
theorem isPrefixOf_spec (l₁ l₂ : List Char) :
    l₁.isPrefixOf l₂ = true ↔ ∃ t, l₁ ++ t = l₂ :=
  List.isPrefixOf_iff_prefix

/-- Boolean `isSuffixOf` expressed through the underlying existential. -/
theorem isSuffixOf_spec (l₁ l₂ : List Char) :
    l₁.isSuffixOf l₂ = true ↔ ∃ t, t ++ l₁ = l₂ :=
  List.isSuffixOf_iff_suffix

/-- `includes` holds whenever `startsWith` does. -/
theorem includes_of_isPrefixOf (l sub : List Char) (h : sub.isPrefixOf l = true) :
    includesL l sub = true := by
  cases l with
  | nil =>
    rcases (isPrefixOf_spec sub []).mp h with ⟨t, ht⟩
    rcases List.append_eq_nil.mp ht with ⟨h1, _⟩
    simp [includesL, h1]
  | cons c tl =>
    simp [includesL, h]

/-- A character that lower-cases to `'r'` is not whitespace. -/
theorem notWs_of_toLower_r (c : Char) (h : Char.toLower c = 'r') : isWs c = false := by
  by_contra hne
  have hws : isWs c = true := by
    cases hc : isWs c
    · exact absurd hc hne
    · rfl
  simp only [isWs, Bool.or_eq_true, beq_iff_eq] at hws
  rcases hws with ((((h1 | h1) | h1) | h1) | h1) | h1 <;> subst h1 <;> exact absurd h (by decide)

/-- A list whose first and last characters are not whitespace trims to
itself. -/
theorem trim_eq_self (l : List Char)
    (h1 : ∀ c, l.head? = some c → isWs c = false)
    (h2 : ∀ c, l.getLast? = some c → isWs c = false) :
    trim l = l := by
  have hd : l.dropWhile isWs = l := by
    cases l with
    | nil => rfl
    | cons a as =>
      have := h1 a rfl
      rw [List.dropWhile_cons_of_neg]
      simp [this]
  rw [trim, hd, List.rdropWhile_eq_self_iff]
  intro hl
  have := h2 (l.getLast hl) (List.getLast?_eq_getLast l hl)
  simp [this]

/-- `s.trim()` is idempotent. -/
theorem trim_trim (l : List Char) : trim (trim l) = trim l := by
  have hpre := List.rdropWhile_prefix isWs (l.dropWhile isWs)
  have hdw : ((l.dropWhile isWs).rdropWhile isWs).dropWhile isWs
      = (l.dropWhile isWs).rdropWhile isWs := by
    cases hT : (l.dropWhile isWs).rdropWhile isWs with
    | nil => rfl
    | cons c cs =>
      have hhead : (l.dropWhile isWs).head? = some c := by
        rcases hpre with ⟨r, hr⟩
        rw [hT] at hr
        rw [← hr]
        rfl
      have hc : isWs c = false := by
        have h0 := List.head?_dropWhile_not isWs l
        rw [hhead] at h0
        exact h0
      rw [List.dropWhile_cons_of_neg]
      simp [hc]
  show ((trim l).dropWhile isWs).rdropWhile isWs = trim l
  rw [trim, hdw, List.rdropWhile_idempotent]

/-- Lower-casing the `"Rs {num}/="` output. -/
theorem toLowerL_caseA (num : List Char) :
    toLowerL (('R' :: 's' :: ' ' :: num) ++ slashEq)
      = ('r' :: 's' :: ' ' :: toLowerL num) ++ slashEq := by
  have hR : Char.toLower 'R' = 'r' := by decide
  have hs : Char.toLower 's' = 's' := by decide
  have hsp : Char.toLower ' ' = ' ' := by decide
  have hsl : toLowerL slashEq = slashEq := by decide
  simp only [toLowerL] at hsl
  simp only [toLowerL, List.map_append, List.map_cons, hR, hs, hsp, hsl]

/-- The `"Rs {num}/="` output trims to itself. -/
theorem trim_caseA (num : List Char) :
    trim (('R' :: 's' :: ' ' :: num) ++ slashEq) = ('R' :: 's' :: ' ' :: num) ++ slashEq := by
  apply trim_eq_self
  · intro c hc
    have hcR : 'R' = c := by
      simpa using hc
    subst hcR
    decide
  · intro c hc
    have h1 : ('R' :: 's' :: ' ' :: num) ++ slashEq
        = (('R' :: 's' :: ' ' :: num) ++ ['/']) ++ ['='] := by
      simp [slashEq]
    rw [h1, List.getLast?_concat] at hc
    have hcE : '=' = c := by
      simpa using hc
    subst hcE
    decide

/-- Appending `"/="` to a nonempty string with a non-whitespace head
yields a string that trims to itself. -/
theorem trim_caseB (c : Char) (cs : List Char) (hc : isWs c = false) :
    trim ((c :: cs) ++ slashEq) = (c :: cs) ++ slashEq := by
  apply trim_eq_self
  · intro d hd
    have hdc : c = d := by
      simpa using hd
    subst hdc
    exact hc
  · intro d hd
    have h1 : (c :: cs) ++ slashEq = ((c :: cs) ++ ['/']) ++ ['='] := by
      simp [slashEq]
    rw [h1, List.getLast?_concat] at hd
    have hdE : '=' = d := by
      simpa using hd
    subst hdE
    decide

/-- The `"Rs {num}/="` output contains the `"rs"` marker. -/
theorem includes_caseA (num : List Char) :
    includesL (toLowerL (('R' :: 's' :: ' ' :: num) ++ slashEq)) rsMarker = true := by
  rw [toLowerL_caseA]
  apply includes_of_isPrefixOf
  exact (isPrefixOf_spec _ _).mpr ⟨' ' :: (toLowerL num ++ slashEq), rfl⟩

/-- Anything ending in the appended `"/="` literal ends with `"/="`. -/
theorem suffixSlashEq_append (L : List Char) : slashEq.isSuffixOf (L ++ slashEq) = true :=
  (isSuffixOf_spec _ _).mpr ⟨L, rfl⟩

/-- When both branch conditions are false the branch logic is the
identity. -/
theorem formatBranch_eq_self_of (o : List Char)
    (hc1 : cond1 o = false) (hc2 : cond2 o = false) : formatBranch o = o := by
  rw [formatBranch, if_neg (by simp [hc1]), if_neg (by simp [hc2])]

/-- Re-running the branch logic on its own (re-trimmed) output changes
nothing, provided the input was already trimmed. -/
theorem formatBranch_stable (t : List Char) (ht : trim t = t) :
    formatBranch (trim (formatBranch t)) = formatBranch t := by
  by_cases h1 : cond1 t = true
  · have hft : formatBranch t = ('R' :: 's' :: ' ' :: stripNonNumeric t) ++ slashEq := by
      rw [formatBranch, if_pos h1]
    rw [hft, trim_caseA]
    have hc1 : cond1 (('R' :: 's' :: ' ' :: stripNonNumeric t) ++ slashEq) = false := by
      simp only [cond1, includes_caseA, Bool.not_true, Bool.and_false]
    have hc2 : cond2 (('R' :: 's' :: ' ' :: stripNonNumeric t) ++ slashEq) = false := by
      simp only [cond2, suffixSlashEq_append, Bool.not_true, Bool.and_false]
    exact formatBranch_eq_self_of _ hc1 hc2
  · by_cases h2 : cond2 t = true
    · have hpre : rsMarker.isPrefixOf (toLowerL t) = true := (Bool.and_eq_true_iff.mp h2).1
      rcases (isPrefixOf_spec _ _).mp hpre with ⟨r, hr⟩
      cases t with
      | nil => simp [toLowerL, rsMarker] at hr
      | cons c cs =>
        have hcr : Char.toLower c = 'r' := by
          simp only [toLowerL, List.map_cons, rsMarker] at hr
          injection hr with ha _
          exact ha.symm
        have hft : formatBranch (c :: cs) = (c :: cs) ++ slashEq := by
          rw [formatBranch, if_neg h1, if_pos h2]
        rw [hft, trim_caseB c cs (notWs_of_toLower_r c hcr)]
        have hpre2 : rsMarker.isPrefixOf (toLowerL ((c :: cs) ++ slashEq)) = true := by
          apply (isPrefixOf_spec _ _).mpr
          refine ⟨r ++ toLowerL slashEq, ?_⟩
          have hdist : toLowerL ((c :: cs) ++ slashEq)
              = toLowerL (c :: cs) ++ toLowerL slashEq := by
            simp [toLowerL]
          rw [hdist, ← hr, List.append_assoc]
        have hc1 : cond1 ((c :: cs) ++ slashEq) = false := by
          simp only [cond1, includes_of_isPrefixOf _ _ hpre2, Bool.not_true, Bool.and_false]
        have hc2 : cond2 ((c :: cs) ++ slashEq) = false := by
          simp only [cond2, suffixSlashEq_append, Bool.not_true, Bool.and_false]
        exact formatBranch_eq_self_of _ hc1 hc2
    · have hft : formatBranch t = t := by
        rw [formatBranch, if_neg h1, if_neg h2]
      rw [hft, ht, hft]

/-! ## Claim theorems -/

/-- C1: for every overlay centre `(cx, cy) = (px + w/2, py + h/2)`
(resolved top-left plus half the box size), every rotation angle and
every uniform scale, the transform composed by `drawTransform` —
`setupTransform` is by definition the context state in which the draw
callback runs — maps the centre to the same device point as the entry
transform did, so changing scale or rotation never moves the overlay's
geometric centre. -/
theorem setupTransform_center_fixed (px py w h angle s : ℝ) (c0 : Ctx ℝ) :
    (setupTransform Real.pi Real.cos Real.sin (px + w / 2) (py + h / 2) angle s c0).transform.apply
        (px + w / 2, py + h / 2)
      = c0.transform.apply (px + w / 2, py + h / 2) := by
  simp only [setupTransform, ctxSave, ctxTranslate, ctxRotate, ctxScale,
    Mat2D.mul, Mat2D.apply, translateM, rotateM, scaleM]
  rw [Prod.mk.injEq]
  constructor <;> ring

/-- C2: the price text formatter is idempotent:
`format(format(s)) = format(s)` for every string `s`. -/
theorem formatPrice_idem (s : List Char) : formatPrice (formatPrice s) = formatPrice s := by
  show formatBranch (trim (formatBranch (trim s))) = formatBranch (trim s)
  exact formatBranch_stable (trim s) (trim_trim s)

/-- C3 (amended): rules 4 and 5 hold as claimed — with nonempty numeric
content and no case-insensitive `"rs"` the result is `"Rs {numeric}/="`,
and with an `"rs"` prefix but no `"/="` suffix the result is the trimmed
original plus `"/="` — but rule 3 holds only when the second branch does
not fire: with no numeric content the trimmed input is returned
unchanged only if it does not start with `"rs"` while lacking `"/="`. -/
theorem formatPrice_rules (s : List Char) :
    (stripNonNumeric (trim s) = [] → cond2 (trim s) = false → formatPrice s = trim s)
    ∧ (stripNonNumeric (trim s) ≠ [] →
        includesL (toLowerL (trim s)) rsMarker = false →
        formatPrice s = ('R' :: 's' :: ' ' :: stripNonNumeric (trim s)) ++ slashEq)
    ∧ (rsMarker.isPrefixOf (toLowerL (trim s)) = true →
        slashEq.isSuffixOf (trim s) = false →
        formatPrice s = trim s ++ slashEq) := by
  refine ⟨?_, ?_, ?_⟩
  · intro hnum hc2
    have hc1 : cond1 (trim s) = false := by
      simp [cond1, hnum]
    show formatBranch (trim s) = trim s
    rw [formatBranch, if_neg (by simp [hc1]), if_neg (by simp [hc2])]
  · intro hnum hinc
    have hc1 : cond1 (trim s) = true := by
      simp [cond1, hinc, hnum]
    show formatBranch (trim s) = _
    rw [formatBranch, if_pos hc1]
  · intro hpre hsuf
    have hc1 : cond1 (trim s) = false := by
      have hinc := includes_of_isPrefixOf _ _ hpre
      simp only [cond1, hinc, Bool.not_true, Bool.and_false]
    have hc2 : cond2 (trim s) = true := by
      simp [cond2, hpre, hsuf]
    show formatBranch (trim s) = _
    rw [formatBranch, if_neg (by simp [hc1]), if_pos hc2]

/-- C3 counterexample: the input `"rs"` has no numeric content, yet the
formatter returns `"rs/="`, not the trimmed input `"rs"` — rule 3 as
claimed fails on the code. -/
theorem formatPrice_rule3_cex :
    stripNonNumeric (trim "rs".data) = []
    ∧ trim "rs".data = "rs".data
    ∧ formatPrice "rs".data = "rs/=".data
    ∧ formatPrice "rs".data ≠ trim "rs".data :=
  ⟨by decide, by decide, by decide, by decide⟩

/-- C3 witness: the three amended rules applied at `"abc"`, `"1500"`
and `"Rs 1500"`. -/
theorem formatPrice_rules_witness :
    formatPrice "abc".data = trim "abc".data
    ∧ formatPrice "1500".data
        = ('R' :: 's' :: ' ' :: stripNonNumeric (trim "1500".data)) ++ slashEq
    ∧ formatPrice "Rs 1500".data = trim "Rs 1500".data ++ slashEq :=
  ⟨(formatPrice_rules "abc".data).1 (by decide) (by decide),
   (formatPrice_rules "1500".data).2.1 (by decide) (by decide),
   (formatPrice_rules "Rs 1500".data).2.2 (by decide) (by decide)⟩

/-- C4 (amended): after a successful cutout, a failure at a step the
`try`/`catch` can see (context acquisition, bitmap decode of subject or
logo) is caught: `processImage` returns the result of the fresh
catch-path cutout call as a raw, overlay-free blob when that fallback
call succeeds (and propagates the fallback's own failure otherwise,
never the original error).  An encoding failure is never caught: the
final `new Promise` is returned without `await`, so `processImage`
propagates the encode error to the caller with no cutout retry. -/
theorem processImage_fallback_spec (env : Env) (opts : ProcessOptions)
    (b : Blob) (_hcut : env.cutout = Except.ok b) :
    (∀ e b2, processAdvanced env opts = Except.error e →
        env.cutoutNoCfg = Except.ok b2 →
        processImage env opts = Except.ok (ProcOut.raw b2))
    ∧ (∀ d, processAdvanced env opts = Except.ok d →
        env.encodeResult = none →
        processImage env opts = Except.error PErr.encodeFailed) := by
  constructor
  · intro e b2 hfail hretry
    simp only [processImage, hfail, hretry]
  · intro d hok henc
    simp only [processImage, hok, henc]

/-- C4 counterexample: with the cutout succeeding (blob 1), subject
decode failing (error 2) and the catch-path cutout also failing
(error 4), `processImage` propagates error 4 instead of returning a
cutout-only result; when the catch-path cutout succeeds with blob 9 the
returned raw blob is 9, not the original cutout blob 1; and when every
step succeeds except encoding, `processImage` propagates the encode
failure even though the catch-path cutout (blob 11) would have
succeeded — no fallback is attempted for an encode failure. -/
theorem processImage_fallback_cex :
    envDecodeFailRetryFail.cutout = Except.ok 1
    ∧ processAdvanced envDecodeFailRetryFail noOptions = Except.error (PErr.env 2)
    ∧ processImage envDecodeFailRetryFail noOptions = Except.error (PErr.env 4)
    ∧ envDecodeFailRetryOk.cutout = Except.ok 1
    ∧ processImage envDecodeFailRetryOk noOptions = Except.ok (ProcOut.raw 9)
    ∧ envEncodeFail.cutout = Except.ok 1
    ∧ envEncodeFail.cutoutNoCfg = Except.ok 11
    ∧ processImage envEncodeFail noOptions = Except.error PErr.encodeFailed :=
  ⟨rfl, rfl, rfl, rfl, rfl, rfl, rfl, rfl⟩

/-- C4 witness: the amended behaviour at concrete environments — a
caught decode failure falls back to the retry blob, and an uncaught
encode failure propagates. -/
theorem processImage_fallback_spec_witness :
    processImage envDecodeFailRetryOk noOptions = Except.ok (ProcOut.raw 9)
    ∧ processImage envEncodeFail noOptions = Except.error PErr.encodeFailed :=
  ⟨(processImage_fallback_spec envDecodeFailRetryOk noOptions 1 rfl).1 (PErr.env 2) 9 rfl rfl,
   (processImage_fallback_spec envEncodeFail noOptions 1 rfl).2
     ⟨targetSize, targetSize, true, subjectFit 400 300, none, none⟩ rfl rfl⟩

/-- C5 (amended): when the cutout call itself fails, the catch block
re-attempts `removeBackground(imageFile)`; the result of `processImage`
is that retry's outcome (a raw fallback blob on success, the retry's
error on failure) — the original cutout failure is never surfaced
unchanged. -/
theorem processImage_cutoutFail_spec (env : Env) (opts : ProcessOptions) (e : PErr)
    (hcut : env.cutout = Except.error e) :
    processImage env opts =
      (match env.cutoutNoCfg with
       | Except.ok b => Except.ok (ProcOut.raw b)
       | Except.error e2 => Except.error e2) := by
  have hadv : processAdvanced env opts = Except.error e := by
    simp only [processAdvanced, hcut]
  simp only [processImage, hadv]

/-- C5 counterexample: the cutout fails with error 5, yet `processImage`
returns a fallback raw blob 7 — the failure is not surfaced and the
cutout is re-attempted, contradicting the claim. -/
theorem processImage_cutoutFail_cex :
    envCutoutFailRetryOk.cutout = Except.error (PErr.env 5)
    ∧ processImage envCutoutFailRetryOk noOptions = Except.ok (ProcOut.raw 7) :=
  ⟨rfl, rfl⟩

/-- C5 witness: the amended behaviour at a concrete environment. -/
theorem processImage_cutoutFail_spec_witness :
    processImage envCutoutFailRetryOk noOptions = Except.ok (ProcOut.raw 7) :=
  processImage_cutoutFail_spec envCutoutFailRetryOk noOptions (PErr.env 5) rfl

/-- C6 (amended): for a draw callback that leaves the save stack as it
found it, `drawTransform` restores the entry transform state exactly
when the callback returns normally; when the callback raises there is
no `finally`, so the saved entry transform is still pushed on the stack
and the state is not restored. -/
theorem drawTransform_scoped {α E : Type} [Field α] (piA : α) (cosF sinF : α → α)
    (drawFn : Ctx α → Except E Unit × Ctx α)
    (hstack : ∀ c, ((drawFn c).2).stack = c.stack)
    (cx cy angle s : α) (c0 : Ctx α) :
    ((drawTransform piA cosF sinF drawFn cx cy angle s c0).1.isOk = true →
        (drawTransform piA cosF sinF drawFn cx cy angle s c0).2 = c0)
    ∧ ((drawTransform piA cosF sinF drawFn cx cy angle s c0).1.isOk = false →
        (drawTransform piA cosF sinF drawFn cx cy angle s c0).2.stack
          = c0.transform :: c0.stack) := by
  have hsetup : (setupTransform piA cosF sinF cx cy angle s c0).stack
      = c0.transform :: c0.stack := rfl
  have h6 : ((drawFn (setupTransform piA cosF sinF cx cy angle s c0)).2).stack
      = c0.transform :: c0.stack := by
    rw [hstack, hsetup]
  rcases hd : drawFn (setupTransform piA cosF sinF cx cy angle s c0) with ⟨r, c6⟩
  rw [hd] at h6
  cases r with
  | ok u =>
    have hout : drawTransform piA cosF sinF drawFn cx cy angle s c0
        = (Except.ok (), ctxRestore c6) := by
      simp only [drawTransform, hd]
    constructor
    · intro _
      rw [hout]
      show ctxRestore c6 = c0
      rcases c6 with ⟨t6, s6⟩
      simp only at h6
      rw [ctxRestore, h6]
    · intro hfalse
      rw [hout] at hfalse
      exact Bool.noConfusion hfalse
  | error e =>
    have hout : drawTransform piA cosF sinF drawFn cx cy angle s c0
        = (Except.error e, c6) := by
      simp only [drawTransform, hd]
    constructor
    · intro htrue
      rw [hout] at htrue
      exact Bool.noConfusion htrue
    · intro _
      rw [hout]
      exact h6

/-- C6 counterexample: a callback that raises leaves the context
changed — the state after `drawTransform` is not the entry state. -/
theorem drawTransform_raise_cex :
    (drawTransform (0 : ℚ) (fun _ => 1) (fun _ => 0)
        (fun c => ((Except.error 0 : Except ℕ Unit), c)) 5 6 0 2 ⟨idMat, []⟩).2
      ≠ ⟨idMat, []⟩ := by
  intro hEq
  have hst := congrArg Ctx.stack hEq
  simp only [drawTransform, setupTransform, ctxSave, ctxTranslate, ctxRotate,
    ctxScale] at hst
  exact List.noConfusion hst

/-- C6 witness: a normally-returning callback at concrete arguments;
the context is restored exactly to the entry state. -/
theorem drawTransform_scoped_witness :
    (drawTransform (0 : ℚ) (fun _ => 1) (fun _ => 0)
        (fun c => ((Except.ok () : Except Unit Unit), c)) 3 4 0 2 ⟨idMat, []⟩).2
      = ⟨idMat, []⟩ :=
  (drawTransform_scoped 0 (fun _ => 1) (fun _ => 0)
    (fun c => (Except.ok (), c)) (fun _ => rfl) 3 4 0 2 ⟨idMat, []⟩).1 rfl

/-- C7: corner placement resolves exactly as claimed — `(40, 40)` for
top-left, `(720 - w - 40, 40)` for top-right, `(40, 720 - h - 40)` for
bottom-left, `(720 - w - 40, 720 - h - 40)` for bottom-right; for a
100×50 box, bottom-right is `(580, 630)` and top-left `(40, 40)`. -/
theorem getCoords_corners (w h cX cY : ℚ) :
    getCoords w h CornerPosition.topLeft cX cY = ⟨40, 40⟩
    ∧ getCoords w h CornerPosition.topRight cX cY = ⟨720 - w - 40, 40⟩
    ∧ getCoords w h CornerPosition.bottomLeft cX cY = ⟨40, 720 - h - 40⟩
    ∧ getCoords w h CornerPosition.bottomRight cX cY = ⟨720 - w - 40, 720 - h - 40⟩
    ∧ getCoords 100 50 CornerPosition.bottomRight cX cY = ⟨580, 630⟩
    ∧ getCoords 100 50 CornerPosition.topLeft cX cY = ⟨40, 40⟩ := by
  refine ⟨?_, ?_, ?_, ?_, ?_, ?_⟩ <;>
    simp only [getCoords, targetSize, padding, reduceCtorEq, if_false] <;> norm_num

/-- C8: custom placement puts the box centre at
`(xPct/100 · 720, yPct/100 · 720)` and returns that centre minus half
the box size, with no clamping; `Custom(50,50)` with a 100×50 box
resolves to `(310, 335)`. -/
theorem getCoords_custom (w h xPct yPct : ℚ) :
    getCoords w h CornerPosition.custom xPct yPct
        = ⟨xPct / 100 * 720 - w / 2, yPct / 100 * 720 - h / 2⟩
    ∧ (getCoords w h CornerPosition.custom xPct yPct).x + w / 2 = xPct / 100 * 720
    ∧ (getCoords w h CornerPosition.custom xPct yPct).y + h / 2 = yPct / 100 * 720
    ∧ getCoords 100 50 CornerPosition.custom 50 50 = ⟨310, 335⟩ := by
  refine ⟨?_, ?_, ?_, ?_⟩ <;>
    simp only [getCoords, targetSize, padding, if_pos rfl] <;> norm_num

/-- C9: the subject fit scale is `min(0.9·720/w, 0.9·720/h)`; for
positive dimensions the scaled size preserves the aspect ratio, its
larger side is at most `0.9·720 = 648`, and the subject is centred at
`((720 - newWidth)/2, (720 - newHeight)/2)`. -/
theorem subjectFit_spec (w h : ℚ) (hw : 0 < w) (hh : 0 < h) :
    (subjectFit w h).scale = min (0.9 * 720 / w) (0.9 * 720 / h)
    ∧ (subjectFit w h).newWidth / (subjectFit w h).newHeight = w / h
    ∧ max (subjectFit w h).newWidth (subjectFit w h).newHeight ≤ 0.9 * 720
    ∧ (subjectFit w h).x = (720 - (subjectFit w h).newWidth) / 2
    ∧ (subjectFit w h).y = (720 - (subjectFit w h).newHeight) / 2 := by
  have h648 : targetSize * (0.9 : ℚ) = 0.9 * 720 := by norm_num [targetSize]
  have hs : (0 : ℚ) < min (targetSize * 0.9 / w) (targetSize * 0.9 / h) := by
    apply lt_min <;> apply div_pos (by norm_num [targetSize]) <;> assumption
  refine ⟨?_, ?_, ?_, ?_, ?_⟩
  · simp only [subjectFit, h648]
  · show w * _ / (h * _) = w / h
    exact mul_div_mul_right w h (ne_of_gt hs)
  · have h1 : (subjectFit w h).newWidth ≤ 0.9 * 720 := by
      show w * _ ≤ _
      calc w * min (targetSize * 0.9 / w) (targetSize * 0.9 / h)
          ≤ w * (targetSize * 0.9 / w) :=
            mul_le_mul_of_nonneg_left (min_le_left _ _) (le_of_lt hw)
        _ = targetSize * 0.9 := by
            rw [mul_comm]
            exact div_mul_cancel₀ _ (ne_of_gt hw)
        _ = 0.9 * 720 := h648
    have h2 : (subjectFit w h).newHeight ≤ 0.9 * 720 := by
      show h * _ ≤ _
      calc h * min (targetSize * 0.9 / w) (targetSize * 0.9 / h)
          ≤ h * (targetSize * 0.9 / h) :=
            mul_le_mul_of_nonneg_left (min_le_right _ _) (le_of_lt hh)
        _ = targetSize * 0.9 := by
            rw [mul_comm]
            exact div_mul_cancel₀ _ (ne_of_gt hh)
        _ = 0.9 * 720 := h648
    exact max_le h1 h2
  · norm_num [subjectFit, targetSize]
  · norm_num [subjectFit, targetSize]

/-- C9 witness: the fit of a 400×300 subject. -/
theorem subjectFit_spec_witness :
    (subjectFit 400 300).scale = min (0.9 * 720 / 400) (0.9 * 720 / 300)
    ∧ (subjectFit 400 300).newWidth / (subjectFit 400 300).newHeight = 400 / 300
    ∧ max (subjectFit 400 300).newWidth (subjectFit 400 300).newHeight ≤ 0.9 * 720
    ∧ (subjectFit 400 300).x = (720 - (subjectFit 400 300).newWidth) / 2
    ∧ (subjectFit 400 300).y = (720 - (subjectFit 400 300).newHeight) / 2 :=
  subjectFit_spec 400 300 (by norm_num) (by norm_num)

/-- C10: with position `"custom"` and the x/y percentage options
omitted, the logo position resolution defaults both percentages to 0,
placing the overlay centre at canvas `(0, 0)` and its top-left at
`(-w/2, -h/2)` — outside the canvas for positive box sizes. -/
theorem resolveLogoPos_customDefault (opts : ProcessOptions) (w h : ℚ)
    (hpos : opts.logoPosition = some CornerPosition.custom)
    (hx : opts.logoX = none) (hy : opts.logoY = none) :
    resolveLogoPos opts w h = ⟨-(w / 2), -(h / 2)⟩
    ∧ (resolveLogoPos opts w h).x + w / 2 = 0
    ∧ (resolveLogoPos opts w h).y + h / 2 = 0
    ∧ (0 < w → (resolveLogoPos opts w h).x < 0)
    ∧ (0 < h → (resolveLogoPos opts w h).y < 0) := by
  have hres : resolveLogoPos opts w h = ⟨-(w / 2), -(h / 2)⟩ := by
    simp only [resolveLogoPos, getCoordsOpt, jsOrPos, hpos, hx, hy, Option.getD,
      getCoords, if_pos rfl]
    norm_num
  refine ⟨hres, ?_, ?_, ?_, ?_⟩ <;> rw [hres] <;> norm_num

/-- C10 witness: a 100×50 logo with `"custom"` position and omitted
percentages resolves to top-left `(-50, -25)`. -/
theorem resolveLogoPos_customDefault_witness :
    resolveLogoPos optsCustomLogo 100 50 = ⟨-(100 / 2), -(50 / 2)⟩
    ∧ (resolveLogoPos optsCustomLogo 100 50).x + 100 / 2 = 0
    ∧ (resolveLogoPos optsCustomLogo 100 50).y + 50 / 2 = 0
    ∧ ((0 : ℚ) < 100 → (resolveLogoPos optsCustomLogo 100 50).x < 0)
    ∧ ((0 : ℚ) < 50 → (resolveLogoPos optsCustomLogo 100 50).y < 0) :=
  resolveLogoPos_customDefault optsCustomLogo 100 50 rfl rfl rfl

end BGRemoval
